/-
  Verification of the sidecar iterative code-search engine.

  Shallow embedding of:
  - `src/sidecar/src/agentic/tool/search/repository.rs` (Repository::execute_search)
  - `src/sidecar/src/agentic/tool/search/google_studio.rs` (response protocol codec:
    parse_search_response / parse_identify_response / parse_decide_response,
    strip_xml_declaration)
  together with spec-modelled parts for code of the repository that is not in the
  provided sources (the iterative.rs data model, TagIndex, GitWalker, and the
  serde_xml_rs encoder/decoder, which is an external library).

  Rust strings are modelled as Lean `String` / `List Char` (char-level indices in
  place of byte indices: all structurally relevant characters are ASCII); Rust
  `Vec<u8>` as `List (Fin 256)`; fallible operations as `Option` / `Except`.
-/
import Mathlib

namespace Sidecar

/-! ## String helpers modelling Rust `str` primitives -/

/-- Split a char list at every `\n` (the separators are consumed); an empty
input yields one empty part, like Rust `str::split`. -/
def splitOnNL : List Char → List (List Char)
  | [] => [[]]
  | '\n' :: rest => [] :: splitOnNL rest
  | c :: rest =>
    match splitOnNL rest with
    | [] => [[c]]
    | h :: t => (c :: h) :: t

/-- Rust `str::lines` strips one trailing `\r` from a line that was terminated
by `\n` (i.e. a `\r\n` line ending). -/
def stripCRL (l : List Char) : List Char :=
  if l.getLast? = some '\r' then l.dropLast else l

/-- Model of Rust `str::lines`: split on `\n`, strip a `\r` at the end of each
`\n`-terminated part, and do not produce a final empty line for a trailing
newline. -/
def rustLines (s : String) : List String :=
  let parts := splitOnNL s.data
  let init := (parts.dropLast.map stripCRL).map String.mk
  match parts.getLast? with
  | none => []
  | some [] => init
  | some last => init ++ [String.mk last]

/-- First index (char granularity) at which `pat` occurs in `l`; model of Rust
`str::find` for a substring pattern. -/
def findSub (pat : List Char) : List Char → Option Nat
  | [] => if pat = [] then some 0 else none
  | c :: rest =>
    if pat.isPrefixOf (c :: rest) then some 0
    else (findSub pat rest).map (· + 1)

/-- Model of Rust `str::contains` for a substring pattern. -/
def containsSub (s pat : String) : Bool :=
  (findSub pat.data s.data).isSome

/-- Model of Rust `str::trim_start` on char lists. -/
def trimStartL (l : List Char) : List Char :=
  l.dropWhile (fun c => c.isWhitespace)

/-! ## Data model

The `iterative.rs` module of the repository is not among the provided sources;
its types are modelled from the spec (§3 DATA MODEL). -/

/-- Modelled from the spec: `SearchToolType` from iterative.rs — "SearchQuery:
tool: File|Keyword". -/
inductive SearchToolType
  | File
  | Keyword
deriving DecidableEq, Repr

/-- Modelled from the spec: `SearchQuery` from iterative.rs — "{ tool:
File|Keyword, query: text, rationale: text }"; the rationale field is called
`thinking` in the consuming code (repository.rs uses `search_query.thinking`). -/
structure SearchQuery where
  thinking : String
  tool : SearchToolType
  query : String
deriving DecidableEq, Repr

/-- Modelled from the spec: the kind of a tag record from repomap/tag.rs (not in
the provided sources); rendered into rationales via Rust `{:?}` (Debug) format. -/
inductive TagKind
  | definition
  | reference
deriving DecidableEq, Repr

/-- Rendering of `TagKind` under Rust `{:?}` (Debug) formatting: the variant
name. -/
def TagKind.debugFmt : TagKind → String
  | .definition => "Definition"
  | .reference => "Reference"

/-- Modelled from the spec: a tag record of the search index (§6: records
`{name, kind, file path}`); `fname` is the defining file path. -/
structure Tag where
  name : String
  kind : TagKind
  fname : String
deriving DecidableEq, Repr

/-- Modelled from the spec: the search mode argument of
`TagIndex::search_definitions_flattened` (repomap/tag.rs, not in the provided
sources); the two modes used by repository.rs. -/
inductive SearchMode
  | FilePath
  | ExactTagName
deriving DecidableEq, Repr

/-- Modelled from the spec: the read-only search index (§6 "Search index
boundary"), as the collection of its tag records. -/
structure TagIndex where
  tags : List Tag
deriving DecidableEq, Repr

/-- Modelled from the spec: `TagIndex::search_definitions_flattened`
(repomap/tag.rs, not in the provided sources). §6: "find tag records by exact
symbol name" (`ExactTagName`) "and find tag records whose file path matches a
substring" (`FilePath`). The case-sensitivity flag is passed as `false` by
repository.rs and not modelled further. -/
def search_definitions_flattened (idx : TagIndex) (query : String)
    (_case_sensitive : Bool) (mode : SearchMode) : List Tag :=
  match mode with
  | .FilePath => idx.tags.filter (fun t => containsSub t.fname query)
  | .ExactTagName => idx.tags.filter (fun t => t.name == query)

/-- Modelled from the spec: `SearchResultSnippet` from iterative.rs —
"payload: FileContent(bytes) | Tag(symbol name)". Bytes are `Fin 256`. -/
inductive SearchResultSnippet
  | FileContent : List (Fin 256) → SearchResultSnippet
  | Tag : String → SearchResultSnippet
deriving DecidableEq, Repr

/-- Modelled from the spec: `SearchResult` from iterative.rs — "{ path,
rationale, payload }"; the rationale field is called `thinking`
(`SearchResult::new(path, thinking, snippet)` in repository.rs). -/
structure SearchResult where
  path : String
  thinking : String
  snippet : SearchResultSnippet
deriving DecidableEq, Repr

/-- Explicit model of the filesystem boundary (§6): `GitWalker::find_file`
(repomap/file/git.rs, not in the provided sources) — "find one file under root
matching a name, honoring ignore rules (returns at most one path)" — and
`fs::read` — "read bytes at path (returns bytes or a read failure)". Passed
explicitly where the Rust code reads the ambient filesystem. -/
structure FS where
  find_file : String → String → Option String
  read : String → Except String (List (Fin 256))

/-- `Repository` from repository.rs: tree and outline (unused), the tag index
and the working-tree root. -/
structure Repository where
  _tree : String
  _outline : String
  tag_index : TagIndex
  root : String

/-- `Repository::execute_search` from repository.rs (lines 34-132), with the
ambient filesystem passed explicitly as `fs`.
- File tool: query the index in `FilePath` mode; if no tags, fall back to
  `GitWalker::find_file` and read the file (a failed read degrades to empty
  contents); otherwise take the first 20 tags as `Tag` results with the
  synthesized rationale `format!("This file contains a {:?} named {}", t.kind,
  t.name)`.
- Keyword tool: query the index in `ExactTagName` mode and map every tag to a
  `Tag` result with the same rationale; no filesystem access and no cap. -/
def execute_search (repo : Repository) (fs : FS) (search_query : SearchQuery) :
    List SearchResult :=
  match search_query.tool with
  | .File =>
    let tags_in_file :=
      search_definitions_flattened repo.tag_index search_query.query false .FilePath
    match tags_in_file.isEmpty with
    | true =>
      match fs.find_file repo.root search_query.query with
      | some path =>
        let contents :=
          match fs.read path with
          | .ok content => content
          | .error _ => []
        [{ path := path, thinking := search_query.thinking,
           snippet := .FileContent contents }]
      | none => []
    | false =>
      tags_in_file.take 20 |>.map (fun t =>
        { path := t.fname,
          thinking := "This file contains a " ++ t.kind.debugFmt ++ " named " ++ t.name,
          snippet := .Tag t.name })
  | .Keyword =>
    let result :=
      search_definitions_flattened repo.tag_index search_query.query false .ExactTagName
    result.map (fun t =>
      { path := t.fname,
        thinking := "This file contains a " ++ t.kind.debugFmt ++ " named " ++ t.name,
        snippet := .Tag t.name })

/-! ## Response protocol codec (google_studio.rs)

The three parse functions extract the payload block between the `<reply>`
sentinel lines and hand it to `serde_xml_rs::from_str`. The serde decoder is an
external library; it is passed in explicitly as the `from_str` argument of each
parse function, so the functions below embed exactly the code of
google_studio.rs lines 341-384. -/

/-- Modelled from the spec: `SearchRequests` from iterative.rs — the
query-generation payload, "a list of {rationale, tool, query text} records". -/
structure SearchRequests where
  requests : List SearchQuery
deriving DecidableEq, Repr

/-- Modelled from the spec: one item of the identification payload — "a list of
{path, rationale} records" (the rationale field is called `thinking`). -/
structure IdentifyItem where
  path : String
  thinking : String
deriving DecidableEq, Repr

/-- Modelled from the spec: `IdentifyResponse` from identify.rs — the
identification payload, "a list of {path, rationale} records plus a trailing
narrative field" (the narrative field is called `scratch_pad` in the prompts of
google_studio.rs). -/
structure IdentifyResponse where
  items : List IdentifyItem
  scratch_pad : String
deriving DecidableEq, Repr

/-- Modelled from the spec: `DecideResponse` from decide.rs — the decision
payload, "a {suggestions text, complete boolean-as-text} pair". -/
structure DecideResponse where
  suggestions : String
  complete : Bool
deriving DecidableEq, Repr

/-- Modelled from the spec: `SerdeError` from kw_search/types.rs (not in the
provided sources) — "a ProtocolDecodeError carrying both the underlying
structural error and the raw extracted block"; built by
`SerdeError::new(error, lines)` in google_studio.rs. -/
structure SerdeError where
  error : String
  raw_response : String
deriving DecidableEq, Repr

/-- The `IterativeSearchError` variant produced by the parse functions of
google_studio.rs: `IterativeSearchError::SerdeError(SerdeError::new(error,
lines))`. -/
inductive IterativeSearchError
  | SerdeError : SerdeError → IterativeSearchError
deriving DecidableEq, Repr

/-- The block-extraction step shared verbatim by the three parse functions of
google_studio.rs (lines 342-348, 357-363, 372-378):
`response.lines().skip_while(|l| !l.contains("<reply>")).skip(1)
.take_while(|l| !l.contains("</reply>")).collect::<Vec<_>>().join("\n")`. -/
def extract_reply_block (response : String) : String :=
  String.intercalate "\n"
    ((((rustLines response).dropWhile (fun l => !(containsSub l "<reply>"))).drop 1).takeWhile
      (fun l => !(containsSub l "</reply>")))

/-- `GoogleStudioLLM::parse_search_response` (google_studio.rs lines 341-354),
with `serde_xml_rs::from_str::<SearchRequests>` passed in as `from_str` (the
decode error is its textual rendering). -/
def parse_search_response (from_str : String → Except String SearchRequests)
    (response : String) : Except IterativeSearchError SearchRequests :=
  let lines := extract_reply_block response
  match from_str lines with
  | .ok v => .ok v
  | .error error => .error (.SerdeError ⟨error, lines⟩)

/-- `GoogleStudioLLM::parse_identify_response` (google_studio.rs lines
356-369), with `serde_xml_rs::from_str::<IdentifyResponse>` passed in. -/
def parse_identify_response (from_str : String → Except String IdentifyResponse)
    (response : String) : Except IterativeSearchError IdentifyResponse :=
  let lines := extract_reply_block response
  match from_str lines with
  | .ok v => .ok v
  | .error error => .error (.SerdeError ⟨error, lines⟩)

/-- `GoogleStudioLLM::parse_decide_response` (google_studio.rs lines 371-384),
with `serde_xml_rs::from_str::<DecideResponse>` passed in. -/
def parse_decide_response (from_str : String → Except String DecideResponse)
    (response : String) : Except IterativeSearchError DecideResponse :=
  let lines := extract_reply_block response
  match from_str lines with
  | .ok v => .ok v
  | .error error => .error (.SerdeError ⟨error, lines⟩)

/-! ## strip_xml_declaration (google_studio.rs lines 465-479) -/

/-- `GoogleStudioLLM::strip_xml_declaration` at char-list granularity: if the
input starts with `<?xml`, find the first `?>`, drop through it (`end_pos +
XML_DECLARATION_END.len()`) and trim leading whitespace; otherwise (no `<?xml`
at the start, or no `?>` anywhere) return the input unchanged. -/
def stripXmlDeclL (input : List Char) : List Char :=
  if "<?xml".data.isPrefixOf input then
    match findSub "?>".data input with
    | some end_pos => trimStartL (input.drop (end_pos + "?>".data.length))
    | none => input
  else input

/-- `GoogleStudioLLM::strip_xml_declaration` on `String`. -/
def strip_xml_declaration (input : String) : String :=
  String.mk (stripXmlDeclL input.data)

/-! ## Spec-modelled serde_xml_rs codec for `SearchResult`

`serde_xml_rs::to_string` / `from_str` are an external library.  Modelled from
the spec: "serializable into a stable textual form" (§3) with the XML escaping
and the leading document-type declaration `<?xml version="1.0"
encoding="UTF-8"?>` that `to_string` emits, which
`GoogleStudioLLM::strip_xml_declaration` exists to remove. -/

/-- XML escaping of one character: `&` → `&amp;`, `<` → `&lt;`, `>` → `&gt;`. -/
def escapeChar (c : Char) : List Char :=
  if c = '&' then "&amp;".data
  else if c = '<' then "&lt;".data
  else if c = '>' then "&gt;".data
  else [c]

/-- XML escaping of text content. -/
def escapeL (l : List Char) : List Char :=
  (l.map escapeChar).flatten

/-- XML unescaping, inverse of `escapeL` on its image. -/
def unescapeL : List Char → List Char
  | [] => []
  | '&' :: 'a' :: 'm' :: 'p' :: ';' :: r => '&' :: unescapeL r
  | '&' :: 'l' :: 't' :: ';' :: r => '<' :: unescapeL r
  | '&' :: 'g' :: 't' :: ';' :: r => '>' :: unescapeL r
  | c :: rest => c :: unescapeL rest

/-- A byte rendered as the character with that code point (bytes are below 256,
hence always a valid scalar value). -/
def byteChar (b : Fin 256) : Char :=
  Char.ofNat b.val

/-- A character read back as a byte; fails on code points that are not bytes. -/
def charByte (c : Char) : Option (Fin 256) :=
  if h : c.toNat < 256 then some ⟨c.toNat, h⟩ else none

/-- Text content read back as bytes, failing on any non-byte character. -/
def charsToBytes : List Char → Option (List (Fin 256))
  | [] => some []
  | c :: t =>
    match charByte c, charsToBytes t with
    | some b, some bs => some (b :: bs)
    | _, _ => none

/-- The document-type declaration `serde_xml_rs::to_string` emits. -/
def xmlDecl : String :=
  "<?xml version=\"1.0\" encoding=\"UTF-8\"?>"

/-- Encoding of the `snippet` field. -/
def encodeSnippetL : SearchResultSnippet → List Char
  | .FileContent bytes =>
    "<FileContent>".data ++ escapeL (bytes.map byteChar) ++ "</FileContent>".data
  | .Tag name => "<Tag>".data ++ escapeL name.data ++ "</Tag>".data

/-- The `<SearchResult>` document body, fields in declaration order with
escaped text content. -/
def encodeBodyL (r : SearchResult) : List Char :=
  "<SearchResult><path>".data ++ escapeL r.path.data
    ++ "</path><thinking>".data ++ escapeL r.thinking.data
    ++ "</thinking>".data ++ encodeSnippetL r.snippet
    ++ "</SearchResult>".data

/-- `serde_xml_rs::to_string` on a `SearchResult`: the declaration followed by
the document body. -/
def to_string_search_result (r : SearchResult) : String :=
  String.mk (xmlDecl.data ++ encodeBodyL r)

/-- Consume an expected literal tag at the head of the input. -/
def dropTag (tag : List Char) (l : List Char) : Option (List Char) :=
  if tag.isPrefixOf l then some (l.drop tag.length) else none

/-- Read escaped text content: everything up to the next `<`. -/
def readContent (l : List Char) : List Char × List Char :=
  (l.takeWhile (fun c => c != '<'), l.dropWhile (fun c => c != '<'))

/-- Decoding of the `snippet` field. -/
def decodeSnippetL (l : List Char) : Option (SearchResultSnippet × List Char) :=
  match dropTag "<FileContent>".data l with
  | some rest =>
    let content := readContent rest
    match dropTag "</FileContent>".data content.2 with
    | some rest2 =>
      match charsToBytes (unescapeL content.1) with
      | some bytes => some (.FileContent bytes, rest2)
      | none => none
    | none => none
  | none =>
    match dropTag "<Tag>".data l with
    | some rest =>
      let content := readContent rest
      match dropTag "</Tag>".data content.2 with
      | some rest2 => some (.Tag (String.mk (unescapeL content.1)), rest2)
      | none => none
    | none => none

/-- `serde_xml_rs::from_str::<SearchResult>`: parse the document body; the
whole input must be consumed. -/
def from_str_search_result (s : String) : Option SearchResult :=
  match dropTag "<SearchResult><path>".data s.data with
  | none => none
  | some l1 =>
    let pathc := readContent l1
    match dropTag "</path><thinking>".data pathc.2 with
    | none => none
    | some l2 =>
      let thinkc := readContent l2
      match dropTag "</thinking>".data thinkc.2 with
      | none => none
      | some l3 =>
        match decodeSnippetL l3 with
        | none => none
        | some (snippet, l4) =>
          match dropTag "</SearchResult>".data l4 with
          | some [] =>
            some { path := String.mk (unescapeL pathc.1),
                   thinking := String.mk (unescapeL thinkc.1),
                   snippet := snippet }
          | _ => none

/-! ## Spec-modelled session Context and identify-merge (iterative.rs)

The `IterativeSearchContext` type and the orchestration loop live in
iterative.rs, which is not among the provided sources. Modelled from the spec:
"Context: { user_query (immutable), narrative (mutable free text, overwritten
each round), files (ordered collection, unique by path) }" (§3); "Context.files
never holds two entries with the same path (dedup by path)"; the re-discovery
merge policy is unspecified (§9), modelled as keep-first. -/

/-- Modelled from the spec: `File` from iterative.rs — "a discovered relevant
file entry (path + supporting rationale/snippet)". -/
structure File where
  path : String
  thinking : String
deriving DecidableEq, Repr

/-- Modelled from the spec: `IterativeSearchContext` from iterative.rs. -/
structure IterativeSearchContext where
  files : List File
  user_query : String
  scratch_pad : String
deriving DecidableEq, Repr

/-- Modelled from the spec: add one discovered file, deduplicating by path
(keep-first: a path already present is left untouched). -/
def add_file (files : List File) (f : File) : List File :=
  if files.any (fun g => g.path == f.path) then files else files ++ [f]

/-- Modelled from the spec: merge one round's `IdentifyResponse` into the
Context — append the newly discovered files deduplicated by path, and overwrite
the narrative with this round's scratch_pad (§3: "narrative ... overwritten
each round"). -/
def merge_identify (ctx : IterativeSearchContext) (resp : IdentifyResponse) :
    IterativeSearchContext :=
  { ctx with
    files := resp.items.foldl (fun acc it => add_file acc ⟨it.path, it.thinking⟩) ctx.files,
    scratch_pad := resp.scratch_pad }

/-- Modelled from the spec: the Context after a sequence of identify rounds of
the orchestration loop (§4.4: context mutation happens once per round, after
IDENTIFY). -/
def run_rounds (init : IterativeSearchContext) (rounds : List IdentifyResponse) :
    IterativeSearchContext :=
  rounds.foldl merge_identify init

/-! ## Helper lemmas -/

theorem isPrefixOf_append_self (l r : List Char) : l.isPrefixOf (l ++ r) = true := by
  induction l with
  | nil => simp [List.isPrefixOf]
  | cons c t ih => simp [List.isPrefixOf, ih]

theorem dropTag_append (tag rest : List Char) : dropTag tag (tag ++ rest) = some rest := by
  simp [dropTag, isPrefixOf_append_self, List.drop_left]

theorem dropTag_self (tag : List Char) : dropTag tag tag = some [] := by
  simpa using dropTag_append tag []

theorem takeWhile_dropWhile_append (p : Char → Bool) (l r : List Char)
    (hl : ∀ c ∈ l, p c = true) (hr : ∀ c, r.head? = some c → p c = false) :
    (l ++ r).takeWhile p = l ∧ (l ++ r).dropWhile p = r := by
  induction l with
  | nil =>
    cases r with
    | nil => exact ⟨rfl, rfl⟩
    | cons c t =>
      have := hr c rfl
      simp [List.takeWhile, List.dropWhile, this]
  | cons c t ih =>
    have hc : p c = true := hl c (List.mem_cons_self c t)
    have iht := ih (fun d hd => hl d (List.mem_cons_of_mem c hd))
    simp [List.takeWhile, List.dropWhile, hc, iht.1, iht.2]

theorem escapeChar_no_angle (c d : Char) (h : d ∈ escapeChar c) : d ≠ '<' ∧ d ≠ '>' := by
  unfold escapeChar at h
  split_ifs at h with h1 h2 h3
  · rw [show "&amp;".data = ['&', 'a', 'm', 'p', ';'] from rfl] at h
    simp only [List.mem_cons, List.not_mem_nil, or_false] at h
    rcases h with rfl | rfl | rfl | rfl | rfl <;> exact ⟨by decide, by decide⟩
  · rw [show "&lt;".data = ['&', 'l', 't', ';'] from rfl] at h
    simp only [List.mem_cons, List.not_mem_nil, or_false] at h
    rcases h with rfl | rfl | rfl | rfl <;> exact ⟨by decide, by decide⟩
  · rw [show "&gt;".data = ['&', 'g', 't', ';'] from rfl] at h
    simp only [List.mem_cons, List.not_mem_nil, or_false] at h
    rcases h with rfl | rfl | rfl | rfl <;> exact ⟨by decide, by decide⟩
  · simp only [List.mem_singleton] at h
    subst h
    exact ⟨h2, h3⟩

theorem escapeL_no_angle (l : List Char) (d : Char) (h : d ∈ escapeL l) :
    d ≠ '<' ∧ d ≠ '>' := by
  unfold escapeL at h
  rw [List.mem_flatten] at h
  obtain ⟨piece, hpiece, hd⟩ := h
  rw [List.mem_map] at hpiece
  obtain ⟨c, _, rfl⟩ := hpiece
  exact escapeChar_no_angle c d hd

theorem readContent_escapeL (x r : List Char) (h : r.head? = some '<') :
    readContent (escapeL x ++ r) = (escapeL x, r) := by
  unfold readContent
  have := takeWhile_dropWhile_append (fun c => c != '<') (escapeL x) r
    (fun c hc => by simpa using (escapeL_no_angle x c hc).1)
    (fun c hc => by rw [h] at hc; cases hc; simp)
  rw [this.1, this.2]

theorem unescapeL_cons_other (c : Char) (t : List Char) (h1 : c ≠ '&') :
    unescapeL (c :: t) = c :: unescapeL t := by
  rw [unescapeL]
  all_goals (intros; simp_all)

theorem unescapeL_escapeL (l : List Char) : unescapeL (escapeL l) = l := by
  induction l with
  | nil => rfl
  | cons c t ih =>
    have hstep : escapeL (c :: t) = escapeChar c ++ escapeL t := by
      simp [escapeL]
    rw [hstep]
    unfold escapeChar
    split_ifs with h1 h2 h3
    · subst h1
      rw [show "&amp;".data ++ escapeL t = '&' :: 'a' :: 'm' :: 'p' :: ';' :: escapeL t from rfl]
      simp [unescapeL, ih]
    · subst h2
      rw [show "&lt;".data ++ escapeL t = '&' :: 'l' :: 't' :: ';' :: escapeL t from rfl]
      simp [unescapeL, ih]
    · subst h3
      rw [show "&gt;".data ++ escapeL t = '&' :: 'g' :: 't' :: ';' :: escapeL t from rfl]
      simp [unescapeL, ih]
    · rw [List.singleton_append, unescapeL_cons_other c (escapeL t) h1, ih]

theorem charByte_byteChar (b : Fin 256) : charByte (byteChar b) = some b := by
  have hv : (b : Nat).isValidChar := Or.inl (by omega)
  have htn : (byteChar b).toNat = (b : Nat) := by
    simp [byteChar, Char.ofNat, hv, Char.ofNatAux, Char.toNat, UInt32.toNat,
      BitVec.toNat_ofNatLt]
  have hlt : (byteChar b).toNat < 256 := by rw [htn]; exact b.isLt
  simp only [charByte, hlt, dif_pos]
  congr 1
  exact Fin.ext htn

theorem charsToBytes_map_byteChar (bs : List (Fin 256)) :
    charsToBytes (bs.map byteChar) = some bs := by
  induction bs with
  | nil => rfl
  | cons b t ih =>
    simp [charsToBytes, charByte_byteChar b, ih]

theorem dropTag_fc_of_tag (X : List Char) :
    dropTag "<FileContent>".data ("<Tag>".data ++ X) = none := rfl

theorem decodeSnippetL_encodeSnippetL (s : SearchResultSnippet) (rest : List Char) :
    decodeSnippetL (encodeSnippetL s ++ rest) = some (s, rest) := by
  cases s with
  | FileContent bytes =>
    simp only [encodeSnippetL, decodeSnippetL, List.append_assoc, dropTag_append,
      readContent_escapeL _ ("</FileContent>".data ++ rest) rfl,
      unescapeL_escapeL, charsToBytes_map_byteChar]
  | Tag name =>
    simp only [encodeSnippetL, decodeSnippetL, List.append_assoc, dropTag_fc_of_tag,
      dropTag_append, readContent_escapeL _ ("</Tag>".data ++ rest) rfl,
      unescapeL_escapeL]
    cases name
    rfl

theorem from_str_encodeBodyL (r : SearchResult) :
    from_str_search_result (String.mk (encodeBodyL r)) = some r := by
  obtain ⟨p, t, s⟩ := r
  simp only [from_str_search_result, encodeBodyL, List.append_assoc, dropTag_append,
    readContent_escapeL _ ("</path><thinking>".data ++ _) rfl,
    readContent_escapeL _ ("</thinking>".data ++ _) rfl,
    decodeSnippetL_encodeSnippetL, dropTag_self, unescapeL_escapeL]

theorem stripXmlDeclL_decl_append (body : List Char) :
    stripXmlDeclL (xmlDecl.data ++ body) = trimStartL body := by
  have h1 : "<?xml".data.isPrefixOf (xmlDecl.data ++ body) = true := by
    simp [xmlDecl, List.isPrefixOf]
  have h2 : findSub "?>".data (xmlDecl.data ++ body) = some 36 := by
    unfold xmlDecl
    simp [findSub, List.isPrefixOf]
  have h3 : xmlDecl.data.length = 38 := rfl
  unfold stripXmlDeclL
  rw [if_pos h1, h2]
  show trimStartL ((xmlDecl.data ++ body).drop (36 + 2)) = trimStartL body
  rw [show (36 + 2) = 38 from rfl, ← h3, List.drop_left]

theorem stripXmlDeclL_encodeBodyL (r : SearchResult) :
    stripXmlDeclL (encodeBodyL r) = encodeBodyL r := rfl

theorem trimStartL_encodeBodyL (r : SearchResult) :
    trimStartL (encodeBodyL r) = encodeBodyL r := rfl

/-! ### Nodup preservation for the Context merge -/

theorem add_file_nodup (files : List File) (f : File)
    (h : (files.map File.path).Nodup) : ((add_file files f).map File.path).Nodup := by
  unfold add_file
  split
  · exact h
  · next hany =>
    rw [List.map_append, List.map_singleton]
    rw [List.nodup_append]
    refine ⟨h, List.nodup_singleton _, ?_⟩
    intro a ha
    rw [List.mem_map] at ha
    obtain ⟨g, hg, rfl⟩ := ha
    simp only [List.any_eq_true, not_exists, not_and] at hany
    have hne := hany g hg
    simp only [beq_iff_eq] at hne
    simpa using hne

theorem foldl_add_file_nodup (items : List IdentifyItem) (files : List File)
    (h : (files.map File.path).Nodup) :
    ((items.foldl (fun acc it => add_file acc ⟨it.path, it.thinking⟩) files).map
      File.path).Nodup := by
  induction items generalizing files with
  | nil => exact h
  | cons it rest ih =>
    rw [List.foldl_cons]
    exact ih _ (add_file_nodup files ⟨it.path, it.thinking⟩ h)

/-! ## Claim theorems -/

/-- C1: for every File-tool search query, when the index returns one or more
matching tags, `execute_search` returns at most 20 results, all of them Tag
results; in particular, when the index holds 25 tags matching the query it
returns exactly 20 Tag results. -/
theorem execute_search_file_cap (repo : Repository) (fs : FS) (q : SearchQuery)
    (hq : q.tool = SearchToolType.File)
    (hne : search_definitions_flattened repo.tag_index q.query false SearchMode.FilePath ≠ []) :
    (execute_search repo fs q).length ≤ 20
    ∧ (∀ r ∈ execute_search repo fs q, ∃ name, r.snippet = SearchResultSnippet.Tag name)
    ∧ ((search_definitions_flattened repo.tag_index q.query false
          SearchMode.FilePath).length = 25 →
        (execute_search repo fs q).length = 20) := by
  rcases htags : search_definitions_flattened repo.tag_index q.query false
      SearchMode.FilePath with _ | ⟨a, l⟩
  · exact absurd htags hne
  · have hexec : execute_search repo fs q = ((a :: l).take 20).map (fun t =>
        { path := t.fname,
          thinking := "This file contains a " ++ t.kind.debugFmt ++ " named " ++ t.name,
          snippet := .Tag t.name }) := by
      simp only [execute_search, hq, htags, List.isEmpty_cons]
    refine ⟨?_, ?_, ?_⟩
    · rw [hexec, List.length_map, List.length_take]
      exact Nat.min_le_left _ _
    · intro r hr
      rw [hexec, List.mem_map] at hr
      obtain ⟨t, _, rfl⟩ := hr
      exact ⟨t.name, rfl⟩
    · intro h25
      rw [hexec, List.length_map, List.length_take, h25]
      rfl

/-- C2: for every File-tool search query with zero index matches,
`execute_search` falls back to a single filename search over the working tree;
a hit yields exactly one `FileContent` result, a miss yields the empty result
list (the return type has no error case: the fallback never aborts). -/
theorem execute_search_file_fallback (repo : Repository) (fs : FS) (q : SearchQuery)
    (hq : q.tool = SearchToolType.File)
    (hz : search_definitions_flattened repo.tag_index q.query false SearchMode.FilePath = []) :
    (∀ path, fs.find_file repo.root q.query = some path →
      ∃ contents, execute_search repo fs q =
        [{ path := path, thinking := q.thinking,
           snippet := SearchResultSnippet.FileContent contents }])
    ∧ (fs.find_file repo.root q.query = none → execute_search repo fs q = []) := by
  constructor
  · intro path hp
    refine ⟨match fs.read path with | .ok c => c | .error _ => [], ?_⟩
    simp only [execute_search, hq, hz, List.isEmpty_nil, hp]
  · intro hp
    simp only [execute_search, hq, hz, List.isEmpty_nil, hp]

/-- C3: for every Keyword-tool search query, `execute_search` queries the index
in exact-symbol-name mode only, is independent of the filesystem (no fallback),
returns the empty list when the index has no match, and returns one Tag result
per index match with no cap. -/
theorem execute_search_keyword (repo : Repository) (fs fs2 : FS) (q : SearchQuery)
    (hq : q.tool = SearchToolType.Keyword) :
    execute_search repo fs q =
      (search_definitions_flattened repo.tag_index q.query false
        SearchMode.ExactTagName).map (fun t =>
        { path := t.fname,
          thinking := "This file contains a " ++ t.kind.debugFmt ++ " named " ++ t.name,
          snippet := .Tag t.name })
    ∧ execute_search repo fs q = execute_search repo fs2 q
    ∧ (search_definitions_flattened repo.tag_index q.query false
        SearchMode.ExactTagName = [] → execute_search repo fs q = [])
    ∧ (execute_search repo fs q).length =
        (search_definitions_flattened repo.tag_index q.query false
          SearchMode.ExactTagName).length := by
  have hexec : ∀ fsx : FS, execute_search repo fsx q =
      (search_definitions_flattened repo.tag_index q.query false
        SearchMode.ExactTagName).map (fun t =>
        { path := t.fname,
          thinking := "This file contains a " ++ t.kind.debugFmt ++ " named " ++ t.name,
          snippet := .Tag t.name }) := by
    intro fsx
    simp only [execute_search, hq]
  refine ⟨hexec fs, by rw [hexec fs, hexec fs2], ?_, ?_⟩
  · intro hz
    rw [hexec fs, hz]
    rfl
  · rw [hexec fs, List.length_map]

/-- C6: for every File-tool fallback hit whose file read fails,
`execute_search` returns one `FileContent` result with an empty byte payload
instead of an error. -/
theorem execute_search_read_error_degrades (repo : Repository) (fs : FS)
    (q : SearchQuery) (path err : String)
    (hq : q.tool = SearchToolType.File)
    (hz : search_definitions_flattened repo.tag_index q.query false SearchMode.FilePath = [])
    (hf : fs.find_file repo.root q.query = some path)
    (hr : fs.read path = Except.error err) :
    execute_search repo fs q =
      [{ path := path, thinking := q.thinking,
         snippet := SearchResultSnippet.FileContent [] }] := by
  simp only [execute_search, hq, hz, List.isEmpty_nil, hf, hr]

/-- C7 (counterexample): the synthesized rationale starts with a capital
`This`, not the lowercase `this` of the claim. At a concrete index holding one
tag named `foo` of kind `Definition` in file `a.rs`, the Keyword search
produces the rationale `This file contains a Definition named foo`, and the
claimed form `this file contains a Definition named foo` holds for no result. -/
theorem tag_rationale_counterexample :
    execute_search
        { _tree := "", _outline := "",
          tag_index := { tags := [{ name := "foo", kind := .definition, fname := "a.rs" }] },
          root := "/" }
        { find_file := fun _ _ => none, read := fun _ => .error "e" }
        { thinking := "think", tool := .Keyword, query := "foo" } =
      [{ path := "a.rs", thinking := "This file contains a Definition named foo",
         snippet := .Tag "foo" }]
    ∧ ¬ (∀ r ∈ execute_search
        { _tree := "", _outline := "",
          tag_index := { tags := [{ name := "foo", kind := .definition, fname := "a.rs" }] },
          root := "/" }
        { find_file := fun _ _ => none, read := fun _ => .error "e" }
        { thinking := "think", tool := .Keyword, query := "foo" },
        r.thinking = "this file contains a Definition named foo") := by
  constructor
  · rfl
  · intro hall
    have := hall
      { path := "a.rs", thinking := "This file contains a Definition named foo",
        snippet := .Tag "foo" } (by rw [show execute_search _ _ _ = _ from rfl]; exact List.mem_singleton.mpr rfl)
    exact absurd this (by decide)

/-- C7 (amended): every Tag result produced by `execute_search` (File index
path and Keyword path alike) corresponds to a matched tag record of the index
and carries exactly the synthesized rationale
`This file contains a {kind:?} named {name}` (capital `This`, the kind in Rust
Debug rendering). -/
theorem tag_rationale_form (repo : Repository) (fs : FS) (q : SearchQuery) :
    ∀ r ∈ execute_search repo fs q,
      (∃ name, r.snippet = SearchResultSnippet.Tag name) →
      ∃ t, t ∈ repo.tag_index.tags ∧ r.path = t.fname ∧
        r.snippet = SearchResultSnippet.Tag t.name ∧
        r.thinking = "This file contains a " ++ t.kind.debugFmt ++ " named " ++ t.name := by
  intro r hr hsnip
  rcases hq : q.tool with _ | _
  · rcases htags : search_definitions_flattened repo.tag_index q.query false
        SearchMode.FilePath with _ | ⟨a, l⟩
    · simp only [execute_search, hq, htags, List.isEmpty_nil] at hr
      rcases hf : fs.find_file repo.root q.query with _ | path
      · rw [hf] at hr
        simp at hr
      · rw [hf] at hr
        rw [List.mem_singleton] at hr
        subst hr
        obtain ⟨name, hname⟩ := hsnip
        cases hname
    · simp only [execute_search, hq, htags, List.isEmpty_cons, List.mem_map] at hr
      obtain ⟨t, ht, rfl⟩ := hr
      have ht' : t ∈ search_definitions_flattened repo.tag_index q.query false
          SearchMode.FilePath := by
        rw [htags]
        exact List.mem_of_mem_take ht
      have htt : t ∈ repo.tag_index.tags := by
        simp only [search_definitions_flattened] at ht'
        exact (List.mem_filter.mp ht').1
      exact ⟨t, htt, rfl, rfl, rfl⟩
  · simp only [execute_search, hq, List.mem_map] at hr
    obtain ⟨t, ht, rfl⟩ := hr
    have htt : t ∈ repo.tag_index.tags := by
      simp only [search_definitions_flattened] at ht
      exact (List.mem_filter.mp ht).1
    exact ⟨t, htt, rfl, rfl, rfl⟩

/-- C4: whenever the extracted block fails schema decoding — in particular for
generated text without the sentinel markers, where the extracted block is empty
and the decoder rejects it — each of the three parse functions returns the
SerdeError variant carrying the underlying decode error together with the raw
extracted block, never a default or empty response. -/
theorem parse_response_decode_error
    (fs1 : String → Except String SearchRequests)
    (fs2 : String → Except String IdentifyResponse)
    (fs3 : String → Except String DecideResponse)
    (response : String) (e1 e2 e3 : String)
    (h1 : fs1 (extract_reply_block response) = .error e1)
    (h2 : fs2 (extract_reply_block response) = .error e2)
    (h3 : fs3 (extract_reply_block response) = .error e3) :
    parse_search_response fs1 response =
      .error (.SerdeError ⟨e1, extract_reply_block response⟩)
    ∧ parse_identify_response fs2 response =
      .error (.SerdeError ⟨e2, extract_reply_block response⟩)
    ∧ parse_decide_response fs3 response =
      .error (.SerdeError ⟨e3, extract_reply_block response⟩)
    ∧ ((rustLines response).all (fun l => !(containsSub l "<reply>")) = true →
        extract_reply_block response = "") := by
  refine ⟨?_, ?_, ?_, ?_⟩
  · simp only [parse_search_response, h1]
  · simp only [parse_identify_response, h2]
  · simp only [parse_decide_response, h3]
  · intro hall
    rw [List.all_eq_true] at hall
    unfold extract_reply_block
    rw [List.dropWhile_eq_nil_iff.mpr hall]
    rfl

/-- C9: for generated text containing a line with the opening marker `<reply>`
but no subsequent line with the closing marker `</reply>` (lines at or before
the opening-marker line may contain it), the extracted block is all lines
after the opening-marker line, and each parse function succeeds whenever the
decoder accepts that block — a missing closing marker is not itself
rejected. -/
theorem parse_missing_close_marker
    (fs1 : String → Except String SearchRequests)
    (fs2 : String → Except String IdentifyResponse)
    (fs3 : String → Except String DecideResponse)
    (response : String)
    (_hopen : (rustLines response).any (fun l => containsSub l "<reply>") = true)
    (hclose : ((((rustLines response).dropWhile
        (fun l => !(containsSub l "<reply>"))).drop 1).all
        (fun l => !(containsSub l "</reply>"))) = true) :
    extract_reply_block response =
      String.intercalate "\n"
        (((rustLines response).dropWhile (fun l => !(containsSub l "<reply>"))).drop 1)
    ∧ (∀ v, fs1 (extract_reply_block response) = .ok v →
        parse_search_response fs1 response = .ok v)
    ∧ (∀ v, fs2 (extract_reply_block response) = .ok v →
        parse_identify_response fs2 response = .ok v)
    ∧ (∀ v, fs3 (extract_reply_block response) = .ok v →
        parse_decide_response fs3 response = .ok v) := by
  refine ⟨?_, ?_, ?_, ?_⟩
  · unfold extract_reply_block
    congr 1
    rw [List.takeWhile_eq_self_iff]
    rw [List.all_eq_true] at hclose
    exact hclose
  · intro v hv
    simp only [parse_search_response, hv]
  · intro v hv
    simp only [parse_identify_response, hv]
  · intro v hv
    simp only [parse_decide_response, hv]

/-- C10: `strip_xml_declaration` is the identity on every input that does not
start with `<?xml`, and on every input that starts with `<?xml` but contains no
`?>` terminator; it is a total function (never fails or panics). -/
theorem strip_xml_declaration_identity (input : String) :
    ("<?xml".data.isPrefixOf input.data = false → strip_xml_declaration input = input)
    ∧ ("<?xml".data.isPrefixOf input.data = true →
        findSub "?>".data input.data = none → strip_xml_declaration input = input) := by
  constructor
  · intro hpre
    unfold strip_xml_declaration stripXmlDeclL
    rw [if_neg (by rw [hpre]; exact Bool.false_ne_true)]
  · intro hpre hfind
    unfold strip_xml_declaration stripXmlDeclL
    rw [if_pos hpre, hfind]

/-- C5: encoding a SearchResult to its textual form — with the leading
document-type preamble produced by the encoder, or with the preamble absent —
then stripping the preamble with `strip_xml_declaration` and decoding yields
the original SearchResult: the round trip is the identity regardless of
preamble presence. -/
theorem search_result_roundtrip (r : SearchResult) :
    from_str_search_result (strip_xml_declaration (to_string_search_result r)) = some r
    ∧ from_str_search_result (strip_xml_declaration (String.mk (encodeBodyL r))) = some r := by
  constructor
  · have hs : strip_xml_declaration (to_string_search_result r) =
        String.mk (encodeBodyL r) := by
      unfold strip_xml_declaration to_string_search_result
      rw [show (String.mk (xmlDecl.data ++ encodeBodyL r)).data =
          xmlDecl.data ++ encodeBodyL r from rfl,
        stripXmlDeclL_decl_append, trimStartL_encodeBodyL]
    rw [hs, from_str_encodeBodyL]
  · have hs : strip_xml_declaration (String.mk (encodeBodyL r)) =
        String.mk (encodeBodyL r) := by
      unfold strip_xml_declaration
      rw [show (String.mk (encodeBodyL r)).data = encodeBodyL r from rfl,
        stripXmlDeclL_encodeBodyL]
    rw [hs, from_str_encodeBodyL]

/-- C8: for every session and every sequence of identify-merge rounds of the
orchestration loop, the Context's file collection holds no two entries with the
same path: the merge of identify results preserves uniqueness of file paths. -/
theorem context_files_nodup (init : IterativeSearchContext)
    (h : (init.files.map File.path).Nodup) (rounds : List IdentifyResponse) :
    (((run_rounds init rounds).files).map File.path).Nodup := by
  induction rounds generalizing init with
  | nil => exact h
  | cons resp rest ih =>
    rw [run_rounds, List.foldl_cons]
    exact ih (merge_identify init resp) (foldl_add_file_nodup resp.items init.files h)

/-! ## Concrete sample inputs shared by witnesses -/

/-- A filesystem on which every lookup misses and every read fails. -/
def emptyFS : FS :=
  { find_file := fun _ _ => none, read := fun _ => .error "read failure" }

/-- A filesystem with one findable, readable file. -/
def hitFS : FS :=
  { find_file := fun _ _ => some "f.rs", read := fun _ => .ok [7] }

/-- A filesystem with one findable file whose read fails. -/
def brokenFS : FS :=
  { find_file := fun _ _ => some "f.rs", read := fun _ => .error "denied" }

/-- A repository whose index holds 25 tag records matching the file query
`file`. -/
def repo25 : Repository :=
  { _tree := "", _outline := "",
    tag_index :=
      { tags := List.replicate 25 { name := "foo", kind := .definition, fname := "file.rs" } },
    root := "/" }

/-- A repository with an empty index. -/
def repo0 : Repository :=
  { _tree := "", _outline := "", tag_index := { tags := [] }, root := "/" }

/-- Witness for C1 at a 25-match index. -/
theorem execute_search_file_cap_witness :
    search_definitions_flattened repo25.tag_index "file" false SearchMode.FilePath ≠ []
    ∧ ((execute_search repo25 emptyFS
          { thinking := "t", tool := .File, query := "file" }).length ≤ 20
      ∧ (∀ r ∈ execute_search repo25 emptyFS
            { thinking := "t", tool := .File, query := "file" },
          ∃ name, r.snippet = SearchResultSnippet.Tag name)
      ∧ ((search_definitions_flattened repo25.tag_index "file" false
            SearchMode.FilePath).length = 25 →
          (execute_search repo25 emptyFS
            { thinking := "t", tool := .File, query := "file" }).length = 20)) :=
  ⟨by decide, execute_search_file_cap repo25 emptyFS
    { thinking := "t", tool := .File, query := "file" } rfl (by decide)⟩

/-- Witness for C2 at an empty index, for both a filesystem hit and a miss. -/
theorem execute_search_file_fallback_witness :
    search_definitions_flattened repo0.tag_index "nope" false SearchMode.FilePath = []
    ∧ ((∀ path, hitFS.find_file repo0.root "nope" = some path →
        ∃ contents, execute_search repo0 hitFS
            { thinking := "t", tool := .File, query := "nope" } =
          [{ path := path, thinking := "t",
             snippet := SearchResultSnippet.FileContent contents }])
      ∧ (emptyFS.find_file repo0.root "nope" = none →
          execute_search repo0 emptyFS
            { thinking := "t", tool := .File, query := "nope" } = [])) :=
  ⟨rfl,
    (execute_search_file_fallback repo0 hitFS
      { thinking := "t", tool := .File, query := "nope" } rfl rfl).1,
    (execute_search_file_fallback repo0 emptyFS
      { thinking := "t", tool := .File, query := "nope" } rfl rfl).2⟩

/-- Witness for C3 at a one-tag index and two unrelated filesystems. -/
theorem execute_search_keyword_witness :
    execute_search
        { _tree := "", _outline := "",
          tag_index := { tags := [{ name := "foo", kind := .definition, fname := "a.rs" }] },
          root := "/" } emptyFS
        { thinking := "t", tool := .Keyword, query := "foo" } =
      (search_definitions_flattened
        { tags := [{ name := "foo", kind := .definition, fname := "a.rs" }] } "foo" false
        SearchMode.ExactTagName).map (fun t =>
        { path := t.fname,
          thinking := "This file contains a " ++ t.kind.debugFmt ++ " named " ++ t.name,
          snippet := .Tag t.name })
    ∧ execute_search
        { _tree := "", _outline := "",
          tag_index := { tags := [{ name := "foo", kind := .definition, fname := "a.rs" }] },
          root := "/" } emptyFS
        { thinking := "t", tool := .Keyword, query := "foo" } =
      execute_search
        { _tree := "", _outline := "",
          tag_index := { tags := [{ name := "foo", kind := .definition, fname := "a.rs" }] },
          root := "/" } hitFS
        { thinking := "t", tool := .Keyword, query := "foo" }
    ∧ (search_definitions_flattened
        { tags := [{ name := "foo", kind := .definition, fname := "a.rs" }] } "foo" false
        SearchMode.ExactTagName = [] →
      execute_search
        { _tree := "", _outline := "",
          tag_index := { tags := [{ name := "foo", kind := .definition, fname := "a.rs" }] },
          root := "/" } emptyFS
        { thinking := "t", tool := .Keyword, query := "foo" } = [])
    ∧ (execute_search
        { _tree := "", _outline := "",
          tag_index := { tags := [{ name := "foo", kind := .definition, fname := "a.rs" }] },
          root := "/" } emptyFS
        { thinking := "t", tool := .Keyword, query := "foo" }).length =
      (search_definitions_flattened
        { tags := [{ name := "foo", kind := .definition, fname := "a.rs" }] } "foo" false
        SearchMode.ExactTagName).length :=
  execute_search_keyword
    { _tree := "", _outline := "",
      tag_index := { tags := [{ name := "foo", kind := .definition, fname := "a.rs" }] },
      root := "/" } emptyFS hitFS
    { thinking := "t", tool := .Keyword, query := "foo" } rfl

/-- Witness for C4 at a markerless response and an always-failing decoder. -/
theorem parse_response_decode_error_witness :
    ((fun _ : String => (Except.error "bad" : Except String SearchRequests))
        (extract_reply_block "no markers here") = .error "bad")
    ∧ (parse_search_response (fun _ => .error "bad") "no markers here" =
        .error (.SerdeError ⟨"bad", extract_reply_block "no markers here"⟩)
      ∧ parse_identify_response (fun _ => .error "bad") "no markers here" =
        .error (.SerdeError ⟨"bad", extract_reply_block "no markers here"⟩)
      ∧ parse_decide_response (fun _ => .error "bad") "no markers here" =
        .error (.SerdeError ⟨"bad", extract_reply_block "no markers here"⟩)
      ∧ ((rustLines "no markers here").all (fun l => !(containsSub l "<reply>")) = true →
          extract_reply_block "no markers here" = "")) :=
  ⟨rfl, parse_response_decode_error (fun _ => .error "bad") (fun _ => .error "bad")
    (fun _ => .error "bad") "no markers here" "bad" "bad" "bad" rfl rfl rfl⟩

/-- Witness for C6: fallback hit with a failing read degrades to an
empty-content result. -/
theorem execute_search_read_error_degrades_witness :
    brokenFS.read "f.rs" = Except.error "denied"
    ∧ execute_search repo0 brokenFS { thinking := "t", tool := .File, query := "nope" } =
      [{ path := "f.rs", thinking := "t",
         snippet := SearchResultSnippet.FileContent [] }] :=
  ⟨rfl, execute_search_read_error_degrades repo0 brokenFS
    { thinking := "t", tool := .File, query := "nope" } "f.rs" "denied" rfl rfl rfl rfl⟩

/-- Witness for the amended C7 at a one-tag Keyword search. -/
theorem tag_rationale_form_witness :
    ∃ t, t ∈ ({ tags := [{ name := "foo", kind := .definition, fname := "a.rs" }] } :
        TagIndex).tags
      ∧ ({ path := "a.rs", thinking := "This file contains a Definition named foo",
           snippet := .Tag "foo" } : SearchResult).path = t.fname
      ∧ ({ path := "a.rs", thinking := "This file contains a Definition named foo",
           snippet := .Tag "foo" } : SearchResult).snippet = SearchResultSnippet.Tag t.name
      ∧ ({ path := "a.rs", thinking := "This file contains a Definition named foo",
           snippet := .Tag "foo" } : SearchResult).thinking =
          "This file contains a " ++ t.kind.debugFmt ++ " named " ++ t.name :=
  tag_rationale_form
    { _tree := "", _outline := "",
      tag_index := { tags := [{ name := "foo", kind := .definition, fname := "a.rs" }] },
      root := "/" } emptyFS
    { thinking := "t", tool := .Keyword, query := "foo" }
    { path := "a.rs", thinking := "This file contains a Definition named foo",
      snippet := .Tag "foo" } (by decide) ⟨"foo", rfl⟩

/-- Witness for C8: an empty initial Context and one round reporting the same
path twice. -/
theorem context_files_nodup_witness :
    ((({ files := [], user_query := "q", scratch_pad := "" } :
        IterativeSearchContext).files.map File.path).Nodup)
    ∧ (((run_rounds { files := [], user_query := "q", scratch_pad := "" }
          [{ items := [{ path := "a.rs", thinking := "r1" },
                       { path := "a.rs", thinking := "r2" },
                       { path := "b.rs", thinking := "r3" }],
             scratch_pad := "pad" }]).files).map File.path).Nodup :=
  ⟨by decide, context_files_nodup { files := [], user_query := "q", scratch_pad := "" }
    (by decide)
    [{ items := [{ path := "a.rs", thinking := "r1" },
                 { path := "a.rs", thinking := "r2" },
                 { path := "b.rs", thinking := "r3" }],
       scratch_pad := "pad" }]⟩

/-- Witness for C9 at a response with an opening marker, a closing marker on
an earlier line, and no closing marker on any later line. -/
theorem parse_missing_close_marker_witness :
    ((rustLines "</reply>\n<reply>\npayload").any (fun l => containsSub l "<reply>") = true)
    ∧ (((((rustLines "</reply>\n<reply>\npayload").dropWhile
          (fun l => !(containsSub l "<reply>"))).drop 1).all
          (fun l => !(containsSub l "</reply>"))) = true)
    ∧ (extract_reply_block "</reply>\n<reply>\npayload" =
        String.intercalate "\n"
          (((rustLines "</reply>\n<reply>\npayload").dropWhile
            (fun l => !(containsSub l "<reply>"))).drop 1)
      ∧ (∀ v, (fun _ : String => (Except.ok { requests := [] } :
            Except String SearchRequests))
            (extract_reply_block "</reply>\n<reply>\npayload") = .ok v →
          parse_search_response (fun _ => .ok { requests := [] })
            "</reply>\n<reply>\npayload" = .ok v)
      ∧ (∀ v, (fun _ : String => (Except.ok { items := [], scratch_pad := "s" } :
            Except String IdentifyResponse))
            (extract_reply_block "</reply>\n<reply>\npayload") = .ok v →
          parse_identify_response (fun _ => .ok { items := [], scratch_pad := "s" })
            "</reply>\n<reply>\npayload" = .ok v)
      ∧ (∀ v, (fun _ : String => (Except.ok { suggestions := "s", complete := true } :
            Except String DecideResponse))
            (extract_reply_block "</reply>\n<reply>\npayload") = .ok v →
          parse_decide_response (fun _ => .ok { suggestions := "s", complete := true })
            "</reply>\n<reply>\npayload" = .ok v)) :=
  ⟨by decide, by decide, parse_missing_close_marker (fun _ => .ok { requests := [] })
    (fun _ => .ok { items := [], scratch_pad := "s" })
    (fun _ => .ok { suggestions := "s", complete := true })
    "</reply>\n<reply>\npayload" (by decide) (by decide)⟩

/-- Witness for C10 at an input without `<?xml` and an input with `<?xml` but
no `?>`. -/
theorem strip_xml_declaration_identity_witness :
    strip_xml_declaration "hello" = "hello"
    ∧ strip_xml_declaration "<?xml oops" = "<?xml oops" :=
  ⟨(strip_xml_declaration_identity "hello").1 rfl,
    (strip_xml_declaration_identity "<?xml oops").2 rfl rfl⟩

end Sidecar
